import Mathlib

/-!
# Dwarf Therapist: ScannerJob and UberDelegate

A shallow embedding of `src/scannerjob.cpp` and of the painting routines of
`src/uberdelegate.cpp`, followed by the properties proved about them.

* Pointers are `Option` values (`none` is the null pointer).
* A `DFInstance` carries a ghost log of the calls it received, so that the
  order and the arguments of the calls made by `ScannerJob::get_DFInstance`
  can be stated.
* A painting routine returns the list of calls it issues on its `QPainter`.
* `float`/`double` values are rationals.
-/

namespace DwarfTherapist

/-! ## scannerjob.cpp -/

/-- A memory layout object (the pointee of a `MemoryLayout *`), known only by its identity. -/
structure MemoryLayout where
  id : Nat
  deriving DecidableEq, Repr

/-- The calls `ScannerJob` makes on a `DFInstance`, with their arguments. -/
inductive DFCall where
  | find_running_copy (connect_anyway : Bool)
  | get_memory_layout (checksum : String) (warn : Bool)
  | set_memory_layout (layout : Option MemoryLayout)
  deriving DecidableEq, Repr

/-- What an attempt to attach to a running process yields: whether a process
was found and attached, and the layout pointer the attempt leaves in the
instance (null when the detected version has no layout). -/
structure AttachOutcome where
  found : Bool
  detected : Option MemoryLayout
  deriving DecidableEq, Repr

/-- The surroundings of a job: the outcome of `find_running_copy(connect_anyway)`
on this machine, and the layout catalog consulted by
`get_memory_layout(checksum, warn)`. -/
structure Host where
  attach : Bool → AttachOutcome
  layouts : String → Bool → Option MemoryLayout

/-- The part of a `DFInstance` that `ScannerJob` touches: its current layout
pointer, and the log of calls received. -/
structure DFInstance where
  m_layout : Option MemoryLayout
  calls : List DFCall
  deriving DecidableEq, Repr

/-- Modelled from the spec: `DFInstance::newInstance` is declared in
`dfinstance.h`, which is not among the sources; a fresh instance holds no
layout and has received no call. -/
def DFInstance.newInstance : DFInstance :=
  { m_layout := none, calls := [] }

/-- Modelled from the spec: `DFInstance::find_running_copy` (§4.2, attach) is not
among the sources; it reports whether a process was attached and leaves the
detected layout in the instance. -/
def DFInstance.find_running_copy (host : Host) (df : DFInstance) (connect_anyway : Bool) :
    Bool × DFInstance :=
  let outcome := host.attach connect_anyway
  (outcome.found,
    { m_layout := outcome.detected
      calls := df.calls ++ [DFCall.find_running_copy connect_anyway] })

/-- Modelled from the spec: `DFInstance::get_memory_layout` (§4.1, resolve) is not
among the sources; a pure lookup in the loaded catalog, null when absent. -/
def DFInstance.get_memory_layout (host : Host) (df : DFInstance) (checksum : String)
    (warn : Bool) : Option MemoryLayout × DFInstance :=
  (host.layouts checksum warn,
    { df with calls := df.calls ++ [DFCall.get_memory_layout checksum warn] })

/-- Modelled from the spec: `DFInstance::set_memory_layout` is not among the
sources; it installs the given layout pointer as the instance's layout. -/
def DFInstance.set_memory_layout (df : DFInstance) (layout : Option MemoryLayout) :
    DFInstance :=
  { m_layout := layout, calls := df.calls ++ [DFCall.set_memory_layout layout] }

/-- The job kinds of `scannerjob.h` (an enum, kept as its integer value). -/
abbrev SCANNER_JOB_TYPE := Int

/-- The members of a `ScannerJob`. -/
structure ScannerJob where
  m_job_type : SCANNER_JOB_TYPE
  m_ok : Bool
  m_df : Option DFInstance
  deriving DecidableEq, Repr

/-- `ScannerJob::get_DFInstance`, with the static member
`m_layout_override_checksum` passed in. Returns the method's result and the
job afterwards. -/
def ScannerJob.get_DFInstance (host : Host) (m_layout_override_checksum : String)
    (self : ScannerJob) : Bool × ScannerJob :=
  let m_df := DFInstance.newInstance
  let (result, m_df) := m_df.find_running_copy host true
  let m_df :=
    if !m_layout_override_checksum.isEmpty then
      let (layout, m_df) := m_df.get_memory_layout host m_layout_override_checksum false
      m_df.set_memory_layout layout
    else
      m_df
  (result, { self with m_df := some m_df })

/-- The constructor `ScannerJob::ScannerJob(job_type)`: the initialiser list records the job
type, the body stores the result of `get_DFInstance` in `m_ok`. -/
def ScannerJob.ctor (host : Host) (m_layout_override_checksum : String)
    (job_type : SCANNER_JOB_TYPE) : ScannerJob :=
  let self : ScannerJob := { m_job_type := job_type, m_ok := false, m_df := none }
  let (ok, self) := self.get_DFInstance host m_layout_override_checksum
  { self with m_ok := ok }

/-- `ScannerJob::job_type`. -/
def ScannerJob.job_type (self : ScannerJob) : SCANNER_JOB_TYPE :=
  self.m_job_type

/-- `ScannerJob::df`. -/
def ScannerJob.df (self : ScannerJob) : Option DFInstance :=
  self.m_df

/-- The state the destructor body acts on: the `m_df` pointer and the number
of `delete` operations performed so far. -/
structure ReleaseState where
  m_df : Option DFInstance
  deletions : Nat
  deriving DecidableEq, Repr

/-- The body of `ScannerJob::~ScannerJob`: `if (m_df) delete m_df; m_df = 0;`. -/
def ScannerJob.destructor (s : ReleaseState) : ReleaseState :=
  let deletions := if s.m_df.isSome then s.deletions + 1 else s.deletions
  { m_df := none, deletions := deletions }

/-- The layout pointer held by the job's instance after a call (`none` when the job holds no instance). -/
def ScannerJob.layout (self : ScannerJob) : Option (Option MemoryLayout) :=
  self.m_df.map DFInstance.m_layout

/-- The calls the job's instance has received. -/
def ScannerJob.calls (self : ScannerJob) : List DFCall :=
  match self.m_df with
  | some df => df.calls
  | none => []

/-- A host on which no process is found; its catalog knows the checksum `0xABCD1234` only. -/
def hostNoProcess : Host :=
  { attach := fun _ => { found := false, detected := none }
    layouts := fun checksum _ => if checksum = "0xABCD1234" then some { id := 1 } else none }

/-- A host on which a process is found whose version has layout 7; its catalog
knows the checksum `0xABCD1234` only. -/
def hostRunning : Host :=
  { attach := fun _ => { found := true, detected := some { id := 7 } }
    layouts := fun checksum _ => if checksum = "0xABCD1234" then some { id := 1 } else none }

/-! ## uberdelegate.cpp: geometry, colours and painter calls -/

/-- A point with real coordinates (`QPointF`). -/
structure QPointF where
  x : ℚ
  y : ℚ
  deriving DecidableEq, Repr

/-- A line segment with real coordinates (`QLineF(p1, p2)`). -/
structure QLineF where
  p1 : QPointF
  p2 : QPointF
  deriving DecidableEq, Repr

/-- A rectangle with real coordinates (`QRectF(x, y, width, height)`). -/
structure QRectF where
  x : ℚ
  y : ℚ
  width : ℚ
  height : ℚ
  deriving DecidableEq, Repr

/-- An integer point (`QPoint`). -/
structure QPoint where
  x : Int
  y : Int
  deriving DecidableEq, Repr

/-- An integer rectangle (`QRect`), stored as Qt stores it: by its corners. -/
structure QRect where
  x1 : Int
  y1 : Int
  x2 : Int
  y2 : Int
  deriving DecidableEq, Repr

/-- `QRect::x`. -/
def QRect.x (r : QRect) : Int := r.x1

/-- `QRect::y`. -/
def QRect.y (r : QRect) : Int := r.y1

/-- `QRect::width`. -/
def QRect.width (r : QRect) : Int := r.x2 - r.x1 + 1

/-- `QRect::height`. -/
def QRect.height (r : QRect) : Int := r.y2 - r.y1 + 1

/-- `QRect::topLeft`. -/
def QRect.topLeft (r : QRect) : QPoint := { x := r.x1, y := r.y1 }

/-- `QRect::topRight`. -/
def QRect.topRight (r : QRect) : QPoint := { x := r.x2, y := r.y1 }

/-- `QRect::bottomLeft`. -/
def QRect.bottomLeft (r : QRect) : QPoint := { x := r.x1, y := r.y2 }

/-- `QRect::bottomRight`. -/
def QRect.bottomRight (r : QRect) : QPoint := { x := r.x2, y := r.y2 }

/-- A colour, named by where the code takes it from: one of the delegate's
colour members (read from the user's settings by `read_settings`), the
constant `Qt::gray`, the result of `compliment(bg)` of `utils.h`, or a
colour supplied by the model. -/
inductive QColor where
  | color_skill
  | color_dirty_border
  | color_active_labor
  | color_active_group
  | color_inactive_group
  | color_partial_group
  | color_guides
  | color_border
  | gray
  | compliment (bg : QColor)
  | model (rgb : Nat)
  deriving DecidableEq, Repr

/-- A brush: `Qt::NoBrush` or `QBrush(color)`. -/
inductive QBrush where
  | NoBrush
  | solid (color : QColor)
  deriving DecidableEq, Repr

/-- A pen: `QPen(color)` (no width given) or `QPen(color, width)`. -/
structure QPen where
  color : QColor
  width : Option Nat
  deriving DecidableEq, Repr

/-- The fill rule argument of `QPainter::drawPolygon`. -/
inductive FillRule where
  | OddEvenFill
  | WindingFill
  deriving DecidableEq, Repr

/-- The calls the painting routines issue, on the painter or on the base class. -/
inductive PaintOp where
  | save
  | restore
  | setBrush (brush : QBrush)
  | setPen (pen : QPen)
  | setRenderHintAntialiasing
  | translate (dx : ℚ) (dy : ℚ)
  | scale (sx : ℚ) (sy : ℚ)
  | rotate (angle : ℚ)
  | resetTransform
  | fillRect (r : QRect) (brush : QBrush)
  | fillRectF (r : QRectF) (brush : QBrush)
  | drawRect (r : QRect)
  | drawLine (p1 : QPoint) (p2 : QPoint)
  | drawLines (lines : List QLineF)
  | drawPolygon (points : List QPointF) (fillRule : FillRule)
  | drawTextCentered (r : QRect) (text : String)
  | QStyledItemDelegate_paint
  deriving DecidableEq, Repr

/-- The values of `SKILL_DRAWING_METHOD` that `paint_skill` switches on. -/
inductive SKILL_DRAWING_METHOD where
  | SDM_GROWING_CENTRAL_BOX
  | SDM_GROWING_FILL
  | SDM_GLYPH_LINES
  | SDM_NUMERIC
  deriving DecidableEq, Repr

/-- The members of `UberDelegate` the painting routines read. The star shape
is built by the constructor from `cos` and `sin` in floating point and is
kept as given. -/
structure UberDelegate where
  auto_contrast : Bool
  draw_aggregates : Bool
  m_skill_drawing_method : SKILL_DRAWING_METHOD
  m_star_shape : List QPointF
  deriving DecidableEq, Repr

/-- The diamond built by the constructor of `UberDelegate`. -/
def m_diamond_shape : List QPointF :=
  [ { x := 0.5, y := 0.1 }    -- top
  , { x := 0.75, y := 0.5 }   -- right
  , { x := 0.5, y := 0.9 }    -- bottom
  , { x := 0.25, y := 0.5 } ] -- left

/-- The fields of `QStyleOptionViewItem` the painting routines read: the
cell's rectangle and the `QStyle::State_Selected` flag. -/
structure QStyleOptionViewItem where
  rect : QRect
  state_selected : Bool
  deriving DecidableEq, Repr


/-! ## uberdelegate.cpp: paint_skill -/

/-- A statement under a `case` label of the inner `switch (rating)` of the
`SDM_GLYPH_LINES` branch: a triangle drawn at once, or a segment appended to
the vector `lines`. -/
inductive GlyphStmt where
  | drawPolygon (poly : List QPointF)
  | appendLine (line : QLineF)
  deriving DecidableEq, Repr

/-- The labels `case 14` down to `case 0` of the inner switch, in source
order, each with the statement under it. None of them ends in `break`
before `case 0`, so control falls from each label through all that follow. -/
def glyph_cases : List (Int × GlyphStmt) :=
  [ (14, .drawPolygon [{ x := 0.5, y := 0.1 }, { x := 0.5, y := 0.5 }, { x := 0.9, y := 0.5 }])
  , (13, .drawPolygon [{ x := 0.1, y := 0.5 }, { x := 0.5, y := 0.5 }, { x := 0.5, y := 0.9 }])
  , (12, .drawPolygon [{ x := 0.9, y := 0.5 }, { x := 0.5, y := 0.5 }, { x := 0.5, y := 0.9 }])
  , (11, .drawPolygon [{ x := 0.1, y := 0.5 }, { x := 0.5, y := 0.5 }, { x := 0.5, y := 0.1 }])
  , (10, .appendLine { p1 := { x := 0.5, y := 0.1 }, p2 := { x := 0.9, y := 0.5 } }) -- accomplished
  , (9, .appendLine { p1 := { x := 0.1, y := 0.5 }, p2 := { x := 0.5, y := 0.1 } })  -- professional
  , (8, .appendLine { p1 := { x := 0.5, y := 0.9 }, p2 := { x := 0.1, y := 0.5 } })  -- expert
  , (7, .appendLine { p1 := { x := 0.5, y := 0.9 }, p2 := { x := 0.9, y := 0.5 } })  -- adept
  , (6, .appendLine { p1 := { x := 0.5, y := 0.5 }, p2 := { x := 0.5, y := 0.9 } })  -- talented
  , (5, .appendLine { p1 := { x := 0.5, y := 0.5 }, p2 := { x := 0.9, y := 0.5 } })  -- proficient
  , (4, .appendLine { p1 := { x := 0.5, y := 0.1 }, p2 := { x := 0.5, y := 0.5 } })  -- skilled
  , (3, .appendLine { p1 := { x := 0.1, y := 0.5 }, p2 := { x := 0.5, y := 0.5 } })  -- competent
  , (2, .appendLine { p1 := { x := 0.7, y := 0.3 }, p2 := { x := 0.3, y := 0.7 } })  -- untitled
  , (1, .appendLine { p1 := { x := 0.3, y := 0.3 }, p2 := { x := 0.7, y := 0.7 } })  -- novice
  , (0, .appendLine { p1 := { x := 0.5, y := 0.5 }, p2 := { x := 0.5, y := 0.5 } })  -- dabbling
  ]

/-- The statements the inner switch executes for a rating outside 15..20:
control jumps to the label equal to `rating` and runs to the `break` after
`case 0`; with no such label (and no `default`) nothing is executed. -/
def glyph_fallthrough (rating : Int) : List GlyphStmt :=
  (glyph_cases.dropWhile (fun c => c.1 != rating)).map Prod.snd

/-- The painter calls made by the executed statements (the triangles). -/
def glyph_polygon_ops : List GlyphStmt → List PaintOp
  | [] => []
  | .drawPolygon poly :: rest => PaintOp.drawPolygon poly FillRule.OddEvenFill :: glyph_polygon_ops rest
  | .appendLine _ :: rest => glyph_polygon_ops rest

/-- The vector `lines` after the executed statements. -/
def glyph_lines : List GlyphStmt → List QLineF
  | [] => []
  | .drawPolygon _ :: rest => glyph_lines rest
  | .appendLine line :: rest => line :: glyph_lines rest

/-- `UberDelegate::paint_skill`. The `default:` label of the outer switch
shares the body of `SDM_GROWING_CENTRAL_BOX`. -/
def UberDelegate.paint_skill (self : UberDelegate) (adjusted : QRect) (rating : Int)
    (bg : QColor) (opt : QStyleOptionViewItem) : List PaintOp :=
  let c := if self.auto_contrast then QColor.compliment bg else QColor.color_skill
  let body : List PaintOp :=
    match self.m_skill_drawing_method with
    | .SDM_GROWING_CENTRAL_BOX =>
      if rating ≥ 15 then
        -- draw diamond
        [ .setRenderHintAntialiasing
        , .setPen { color := .gray, width := none }
        , .setBrush (.solid c)
        , .translate (opt.rect.x + 2) (opt.rect.y + 2)
        , .scale (opt.rect.width - 4) (opt.rect.height - 4)
        , .drawPolygon m_diamond_shape .OddEvenFill ]
      else if rating > -1 ∧ rating < 15 then
        let size : ℚ := 0.75 * ((rating + 1) / 15.0) -- even dabbling (0) should be drawn
        let inset : ℚ := (1.0 - size) / 2.0
        [ .translate adjusted.x adjusted.y
        , .scale adjusted.width adjusted.height
        , .fillRectF { x := inset, y := inset, width := size, height := size } (.solid c) ]
      else
        []
    | .SDM_GROWING_FILL =>
      if rating ≥ 15 then
        -- draw diamond
        [ .setRenderHintAntialiasing
        , .setPen { color := .gray, width := none }
        , .setBrush (.solid c)
        , .translate (opt.rect.x + 2) (opt.rect.y + 2)
        , .scale (opt.rect.width - 4) (opt.rect.height - 4)
        , .drawPolygon m_diamond_shape .OddEvenFill ]
      else if rating > -1 ∧ rating < 15 then
        let size : ℚ := (rating + 2) / 16.0
        [ .translate adjusted.x adjusted.y
        , .scale adjusted.width adjusted.height
        , .fillRectF { x := 0, y := 0, width := size, height := 1 } (.solid c) ]
      else
        []
    | .SDM_GLYPH_LINES =>
      [ .setBrush (.solid c)
      , .setPen { color := c, width := none }
      , .translate adjusted.x adjusted.y
      , .scale adjusted.width adjusted.height ] ++
      -- switch (rating): the calls it makes and the vector `lines` it leaves
      let (switch_ops, lines) : List PaintOp × List QLineF :=
        if 15 ≤ rating ∧ rating ≤ 20 then
          ([ .resetTransform
           , .translate (adjusted.x + adjusted.width / 2.0) (adjusted.y + adjusted.height / 2.0)
           , .scale adjusted.width adjusted.height
           , .rotate (-18)
           , .setRenderHintAntialiasing
           , .drawPolygon self.m_star_shape .WindingFill ], [])
        else
          (glyph_polygon_ops (glyph_fallthrough rating), glyph_lines (glyph_fallthrough rating))
      switch_ops ++ [ .drawLines lines ]
    | .SDM_NUMERIC =>
      if rating > -1 then -- don't draw 0s everywhere
        [ .setPen { color := c, width := none }
        , .drawTextCentered opt.rect (toString rating) ]
      else
        []
  [PaintOp.save] ++ body ++ [PaintOp.restore]

/-! ## uberdelegate.cpp: paint_grid and paint_aggregate -/

/-- `UberDelegate::paint_grid`. -/
def UberDelegate.paint_grid (_self : UberDelegate) (adjusted : QRect) (dirty : Bool)
    (opt : QStyleOptionViewItem) : List PaintOp :=
  [ PaintOp.save -- border last
  , PaintOp.setBrush .NoBrush ] ++
  (if dirty then
    [ .setPen { color := .color_dirty_border, width := some 1 }
    , .drawRect adjusted ]
  else if opt.state_selected then
    [ .setPen { color := .color_border, width := none }
    , .drawRect adjusted
    , .setPen { color := .color_guides, width := none }
    , .drawLine opt.rect.topLeft opt.rect.topRight
    , .drawLine opt.rect.bottomLeft opt.rect.bottomRight ]
  else
    [ .setPen { color := .color_border, width := none }
    , .drawRect adjusted ]) ++
  [ PaintOp.restore ]

/-- The two queries `paint_aggregate` makes on a `Dwarf` (class not among the sources). -/
structure Dwarf where
  labor_enabled : Int → Bool
  is_labor_state_dirty : Int → Bool

/-- The query `paint_aggregate` makes on the `DwarfModel`: `get_dwarf_by_id`,
null when no dwarf has the id. -/
structure DwarfModel where
  get_dwarf_by_id : Int → Option Dwarf

/-- What `paint_aggregate` reads through the proxy model for the cell at
`proxy_idx`: whether `proxy_idx` and the row's first-column index `first_col`
are valid, the cell's `DR_LABOR_ID`, and the `DR_ID` of every child row of
`first_col`, in row order (`rowCount(first_col)` is the length of `rows`). -/
structure AggregateCell where
  isValid : Bool
  first_col_isValid : Bool
  labor_id : Int
  rows : List Int

/-- `m_proxy->rowCount(first_col)`. -/
def AggregateCell.rowCount (cell : AggregateCell) : Nat := cell.rows.length

/-- The counting loop of `paint_aggregate` over the child rows, from the
counters `(dirty_count, enabled_count)` so far: a row with no dwarf is skipped
(`continue`), otherwise each counter is incremented when its query holds. -/
def aggregate_counts (m_model : DwarfModel) (labor_id : Int) :
    List Int → Nat × Nat → Nat × Nat
  | [], counts => counts
  | dwarf_id :: rest, (dirty_count, enabled_count) =>
    match m_model.get_dwarf_by_id dwarf_id with
    | none => aggregate_counts m_model labor_id rest (dirty_count, enabled_count)
    | some d =>
      let enabled_count := if d.labor_enabled labor_id then enabled_count + 1 else enabled_count
      let dirty_count := if d.is_labor_state_dirty labor_id then dirty_count + 1 else dirty_count
      aggregate_counts m_model labor_id rest (dirty_count, enabled_count)

/-- `UberDelegate::paint_aggregate`. -/
def UberDelegate.paint_aggregate (self : UberDelegate) (m_model : DwarfModel)
    (adjusted : QRect) (opt : QStyleOptionViewItem) (proxy_idx : AggregateCell) :
    List PaintOp :=
  if !proxy_idx.isValid then
    []
  else if !proxy_idx.first_col_isValid then
    []
  else
    let labor_id := proxy_idx.labor_id
    let (dirty_count, enabled_count) := aggregate_counts m_model labor_id proxy_idx.rows (0, 0)
    [ PaintOp.QStyledItemDelegate_paint -- slap on the main bg
    , PaintOp.save ] ++
    (if enabled_count = proxy_idx.rowCount then
      [ PaintOp.fillRect adjusted (.solid .color_active_group) ]
    else if enabled_count > 0 then
      [ PaintOp.fillRect adjusted (.solid .color_partial_group) ]
    else
      [ PaintOp.fillRect adjusted (.solid .color_inactive_group) ]) ++
    [ PaintOp.restore ] ++
    self.paint_grid adjusted (decide (dirty_count > 0)) opt


/-! ## Reading a sequence of painter calls -/

/-- How many shapes one call draws: a filled rectangle, an outlined rectangle,
a polygon, a text or a single line count as one, `drawLines` as many as it is
given segments, and a call that only changes the painter's state as none. -/
def PaintOp.primitives : PaintOp → Nat
  | .fillRect _ _ => 1
  | .fillRectF _ _ => 1
  | .drawRect _ => 1
  | .drawLine _ _ => 1
  | .drawLines lines => lines.length
  | .drawPolygon _ _ => 1
  | .drawTextCentered _ _ => 1
  | _ => 0

/-- The number of shapes a sequence of calls draws. -/
def drawing_primitives (ops : List PaintOp) : Nat :=
  (ops.map PaintOp.primitives).sum

/-- The segments passed to `drawLines`, in order. -/
def line_segments : List PaintOp → List QLineF
  | [] => []
  | .drawLines lines :: ops => lines ++ line_segments ops
  | _ :: ops => line_segments ops

/-- The polygons passed to `drawPolygon`, in order. -/
def polygons : List PaintOp → List (List QPointF)
  | [] => []
  | .drawPolygon points _ :: ops => points :: polygons ops
  | _ :: ops => polygons ops

/-- The polygons drawn that have three corners. -/
def triangles (ops : List PaintOp) : List (List QPointF) :=
  (polygons ops).filter (fun points => points.length = 3)

/-- The rectangles outlined by `drawRect`, in order. -/
def drawn_rects : List PaintOp → List QRect
  | [] => []
  | .drawRect r :: ops => r :: drawn_rects ops
  | _ :: ops => drawn_rects ops

/-- The lines drawn by `drawLine`, in order. -/
def drawn_lines : List PaintOp → List (QPoint × QPoint)
  | [] => []
  | .drawLine p1 p2 :: ops => (p1, p2) :: drawn_lines ops
  | _ :: ops => drawn_lines ops

/-- The rectangles filled by `fillRect`, each with its brush, in order. -/
def filled_rects : List PaintOp → List (QRect × QBrush)
  | [] => []
  | .fillRect r brush :: ops => (r, brush) :: filled_rects ops
  | _ :: ops => filled_rects ops

/-- The rectangles filled by `fillRect(QRectF, ...)`, in order. -/
def filled_rectsF : List PaintOp → List QRectF
  | [] => []
  | .fillRectF r _ :: ops => r :: filled_rectsF ops
  | _ :: ops => filled_rectsF ops

/-- `QRectF::center`: the point half the width and half the height from the corner. -/
def QRectF.center (r : QRectF) : QPointF :=
  { x := r.x + r.width / 2, y := r.y + r.height / 2 }

/-- Whether a rectangle lies inside the unit cell `[0,1] x [0,1]` that the
painter's `translate` and `scale` map onto the adjusted rectangle. -/
def QRectF.inUnitCell (r : QRectF) : Prop :=
  0 ≤ r.x ∧ 0 ≤ r.y ∧ r.x + r.width ≤ 1 ∧ r.y + r.height ≤ 1

/-- Whether a row of a group resolves to a dwarf with the labor enabled
(a row whose dwarf cannot be found does not). -/
def row_enabled (m_model : DwarfModel) (labor_id : Int) (dwarf_id : Int) : Bool :=
  match m_model.get_dwarf_by_id dwarf_id with
  | some d => d.labor_enabled labor_id
  | none => false

/-- Whether a row of a group resolves to a dwarf whose state for the labor is dirty. -/
def row_dirty (m_model : DwarfModel) (labor_id : Int) (dwarf_id : Int) : Bool :=
  match m_model.get_dwarf_by_id dwarf_id with
  | some d => d.is_labor_state_dirty labor_id
  | none => false

/-- The number of rows of a group that resolve to a dwarf with the labor enabled. -/
def enabled_rows (m_model : DwarfModel) (labor_id : Int) (rows : List Int) : Nat :=
  rows.countP (row_enabled m_model labor_id)

/-- The number of rows of a group that resolve to a dwarf whose state for the labor is dirty. -/
def dirty_rows (m_model : DwarfModel) (labor_id : Int) (rows : List Int) : Nat :=
  rows.countP (row_dirty m_model labor_id)

/-! ## Sample inputs -/

/-- A job before its constructor body has run. -/
def sampleJob : ScannerJob :=
  { m_job_type := 2, m_ok := false, m_df := none }

/-- A delegate drawing skills as glyph lines. -/
def glyphDelegate : UberDelegate :=
  { auto_contrast := true, draw_aggregates := true
    m_skill_drawing_method := .SDM_GLYPH_LINES
    m_star_shape := [{ x := 0.4, y := 0 }, { x := -0.3, y := 0.2 }, { x := 0.1, y := -0.4 },
                     { x := 0.1, y := 0.4 }, { x := -0.3, y := -0.2 }] }

/-- A delegate drawing skills as a growing central box, in the skill colour. -/
def boxDelegate : UberDelegate :=
  { auto_contrast := false, draw_aggregates := true
    m_skill_drawing_method := .SDM_GROWING_CENTRAL_BOX
    m_star_shape := [] }

/-- A 16 by 16 cell at the origin. -/
def sampleRect : QRect :=
  { x1 := 0, y1 := 0, x2 := 15, y2 := 15 }

/-- An unselected cell. -/
def sampleOption : QStyleOptionViewItem :=
  { rect := sampleRect, state_selected := false }

/-- A model with two dwarves: 1 has labor 5 enabled and dirty, 2 has nothing enabled. -/
def sampleModel : DwarfModel :=
  { get_dwarf_by_id := fun dwarf_id =>
      if dwarf_id = 1 then
        some { labor_enabled := fun l => l == 5, is_labor_state_dirty := fun l => l == 5 }
      else if dwarf_id = 2 then
        some { labor_enabled := fun _ => false, is_labor_state_dirty := fun _ => false }
      else none }

/-- A group of three rows for labor 5: dwarf 1, dwarf 2 and an id no dwarf has. -/
def sampleGroup : AggregateCell :=
  { isValid := true, first_col_isValid := true, labor_id := 5, rows := [1, 2, 99] }


/-! ## ScannerJob: theorems -/

/-- The result and the instance left by `get_DFInstance`, by whether the override is empty. -/
theorem get_DFInstance_eq (host : Host) (c : String) (self : ScannerJob) :
    self.get_DFInstance host c =
      ((host.attach true).found,
        { self with
          m_df := some
            (if c.isEmpty then
              { m_layout := (host.attach true).detected
                calls := [DFCall.find_running_copy true] }
            else
              { m_layout := host.layouts c false
                calls := [DFCall.find_running_copy true, DFCall.get_memory_layout c false,
                  DFCall.set_memory_layout (host.layouts c false)] }) }) := by
  cases h : c.isEmpty <;>
    simp [ScannerJob.get_DFInstance, DFInstance.newInstance, DFInstance.find_running_copy,
      DFInstance.get_memory_layout, DFInstance.set_memory_layout, h]

/-- C1. With a non-empty override checksum `c`, whatever attaching yielded,
the instance's layout after `get_DFInstance` is the one `get_memory_layout(c, false)`
returned, installed by one final `set_memory_layout`; with an empty override
`set_memory_layout` is never called and the layout is the one attaching left. -/
theorem get_DFInstance_layout_override (host : Host) (self : ScannerJob) (c : String) :
    (c.isEmpty = false →
      (self.get_DFInstance host c).2.layout = some (host.layouts c false) ∧
      (self.get_DFInstance host c).2.calls =
        [DFCall.find_running_copy true, DFCall.get_memory_layout c false,
          DFCall.set_memory_layout (host.layouts c false)]) ∧
    (c.isEmpty = true →
      (self.get_DFInstance host c).2.layout = some (host.attach true).detected ∧
      (self.get_DFInstance host c).2.calls = [DFCall.find_running_copy true] ∧
      ∀ layout, DFCall.set_memory_layout layout ∉ (self.get_DFInstance host c).2.calls) := by
  constructor
  · intro h
    simp [get_DFInstance_eq, h, ScannerJob.layout, ScannerJob.calls]
  · intro h
    simp [get_DFInstance_eq, h, ScannerJob.layout, ScannerJob.calls]

/-- C1 at concrete inputs: no process found and override `0xABCD1234` gives
layout 1; a process with layout 7 and no override keeps layout 7. -/
theorem get_DFInstance_layout_override_witness :
    (sampleJob.get_DFInstance hostNoProcess "0xABCD1234").2.layout = some (some { id := 1 }) ∧
    (sampleJob.get_DFInstance hostRunning "").2.layout = some (some { id := 7 }) :=
  ⟨((get_DFInstance_layout_override hostNoProcess sampleJob "0xABCD1234").1 (by decide)).1,
   ((get_DFInstance_layout_override hostRunning sampleJob "").2 (by decide)).1⟩

/-- C2, as stated, fails: a process is found, the override `deadbeef` is
configured, its lookup yields no layout, and the job is ok with a null layout. -/
theorem ctor_ok_without_layout :
    hostRunning.layouts "deadbeef" false = none ∧
    (ScannerJob.ctor hostRunning "deadbeef" 2).m_ok = true ∧
    (ScannerJob.ctor hostRunning "deadbeef" 2).layout = some none := by
  have h : "deadbeef".isEmpty = false := by decide
  simp [ScannerJob.ctor, get_DFInstance_eq, hostRunning, ScannerJob.layout, h]

/-- C2, amended. The ok flag of a constructed job is the value `get_DFInstance`
returned, and that is exactly whether `find_running_copy(true)` succeeded,
for every override checksum and whatever its lookup yields. -/
theorem ctor_ok_iff_attached (host : Host) (c : String) (job_type : SCANNER_JOB_TYPE)
    (self : ScannerJob) :
    (self.get_DFInstance host c).1 = (host.attach true).found ∧
    ((ScannerJob.ctor host c job_type).m_ok = true ↔ (host.attach true).found = true) := by
  simp [ScannerJob.ctor, get_DFInstance_eq]

/-- C3, as stated, fails: no process is found, yet with the override
`0xABCD1234` configured both `get_memory_layout` and `set_memory_layout` are
invoked on the instance. -/
theorem get_DFInstance_resolves_after_failed_attach :
    (hostNoProcess.attach true).found = false ∧
    (sampleJob.get_DFInstance hostNoProcess "0xABCD1234").1 = false ∧
    DFCall.get_memory_layout "0xABCD1234" false ∈
      (sampleJob.get_DFInstance hostNoProcess "0xABCD1234").2.calls ∧
    DFCall.set_memory_layout (some { id := 1 }) ∈
      (sampleJob.get_DFInstance hostNoProcess "0xABCD1234").2.calls := by
  have h : "0xABCD1234".isEmpty = false := by decide
  simp [get_DFInstance_eq, hostNoProcess, ScannerJob.calls, h]

/-- C3, amended. When `find_running_copy(true)` fails, `get_DFInstance` returns
false for every override checksum; whether the layout is resolved depends on
the override alone: with an empty override no call follows the attach, with a
non-empty override `c` the calls `get_memory_layout(c, false)` and
`set_memory_layout` follow it, once each. -/
theorem get_DFInstance_attach_failure (host : Host) (self : ScannerJob) (c : String)
    (hfail : (host.attach true).found = false) :
    (self.get_DFInstance host c).1 = false ∧
    (c.isEmpty = true →
      (self.get_DFInstance host c).2.calls = [DFCall.find_running_copy true]) ∧
    (c.isEmpty = false →
      (self.get_DFInstance host c).2.calls =
        [DFCall.find_running_copy true, DFCall.get_memory_layout c false,
          DFCall.set_memory_layout (host.layouts c false)]) := by
  refine ⟨?_, ?_, ?_⟩
  · simp [get_DFInstance_eq, hfail]
  · intro h
    simp [get_DFInstance_eq, h, ScannerJob.calls]
  · intro h
    simp [get_DFInstance_eq, h, ScannerJob.calls]

/-- C3, amended, at a concrete input: no process found, no override. -/
theorem get_DFInstance_attach_failure_witness :
    (hostNoProcess.attach true).found = false ∧
    (sampleJob.get_DFInstance hostNoProcess "").1 = false ∧
    (sampleJob.get_DFInstance hostNoProcess "").2.calls = [DFCall.find_running_copy true] :=
  ⟨rfl, (get_DFInstance_attach_failure hostNoProcess sampleJob "" rfl).1,
   (get_DFInstance_attach_failure hostNoProcess sampleJob "" rfl).2.1 (by decide)⟩

/-- C4. The destructor body deletes the held instance once if one is held and
nothing otherwise, leaves `m_df` null, and run a second time changes nothing
(so deletes nothing). -/
theorem destructor_idempotent (s : ReleaseState) :
    (ScannerJob.destructor s).m_df = none ∧
    (ScannerJob.destructor s).deletions = s.deletions + (if s.m_df.isSome then 1 else 0) ∧
    ScannerJob.destructor (ScannerJob.destructor s) = ScannerJob.destructor s ∧
    (ScannerJob.destructor (ScannerJob.destructor s)).deletions =
      (ScannerJob.destructor s).deletions := by
  cases h : s.m_df <;> simp [ScannerJob.destructor, h]

/-- C5. A job constructed with job type `t` reports `t`, whatever attaching
yields and whatever the override checksum is; `get_DFInstance` leaves the
recorded job type as it was. -/
theorem job_type_recorded (host : Host) (c : String) (t : SCANNER_JOB_TYPE)
    (self : ScannerJob) :
    (ScannerJob.ctor host c t).job_type = t ∧
    (self.get_DFInstance host c).2.job_type = self.job_type := by
  simp [ScannerJob.ctor, get_DFInstance_eq, ScannerJob.job_type]


/-! ## UberDelegate: paint_grid and paint_aggregate, theorems -/

/-- C6. `paint_grid` outlines exactly one rectangle, the adjusted one, with the
pen set just before it; that pen has the dirty-border colour exactly when the
cell is dirty, selected or not, and the border colour otherwise; the two
horizontal guide lines (top and bottom edge of the cell, in the guide colour)
are drawn exactly when the cell is selected and not dirty. -/
theorem paint_grid_border_and_guides (self : UberDelegate) (adjusted : QRect) (dirty : Bool)
    (opt : QStyleOptionViewItem) :
    ∃ (pen : QPen) (guides : List PaintOp),
      self.paint_grid adjusted dirty opt =
        [PaintOp.save, PaintOp.setBrush QBrush.NoBrush, PaintOp.setPen pen,
          PaintOp.drawRect adjusted] ++ guides ++ [PaintOp.restore] ∧
      drawn_rects (self.paint_grid adjusted dirty opt) = [adjusted] ∧
      (pen.color = QColor.color_dirty_border ↔ dirty = true) ∧
      (dirty = false → pen.color = QColor.color_border) ∧
      guides =
        (if opt.state_selected = true ∧ dirty = false then
          [PaintOp.setPen { color := QColor.color_guides, width := none },
            PaintOp.drawLine opt.rect.topLeft opt.rect.topRight,
            PaintOp.drawLine opt.rect.bottomLeft opt.rect.bottomRight]
        else []) ∧
      drawn_lines (self.paint_grid adjusted dirty opt) =
        (if opt.state_selected = true ∧ dirty = false then
          [(opt.rect.topLeft, opt.rect.topRight), (opt.rect.bottomLeft, opt.rect.bottomRight)]
        else []) := by
  cases dirty <;> cases hsel : opt.state_selected
  · exact ⟨{ color := QColor.color_border, width := none }, [], by
      simp [UberDelegate.paint_grid, hsel, drawn_rects, drawn_lines]⟩
  · exact ⟨{ color := QColor.color_border, width := none },
      [PaintOp.setPen { color := QColor.color_guides, width := none },
        PaintOp.drawLine opt.rect.topLeft opt.rect.topRight,
        PaintOp.drawLine opt.rect.bottomLeft opt.rect.bottomRight], by
      simp [UberDelegate.paint_grid, hsel, drawn_rects, drawn_lines]⟩
  · exact ⟨{ color := QColor.color_dirty_border, width := some 1 }, [], by
      simp [UberDelegate.paint_grid, hsel, drawn_rects, drawn_lines]⟩
  · exact ⟨{ color := QColor.color_dirty_border, width := some 1 }, [], by
      simp [UberDelegate.paint_grid, hsel, drawn_rects, drawn_lines]⟩

/-- The counting loop adds to each counter the number of rows that resolve to
a dwarf for which the counter's query holds. -/
theorem aggregate_counts_eq (m_model : DwarfModel) (labor_id : Int) (rows : List Int)
    (dirty_count enabled_count : Nat) :
    aggregate_counts m_model labor_id rows (dirty_count, enabled_count) =
      (dirty_count + dirty_rows m_model labor_id rows,
        enabled_count + enabled_rows m_model labor_id rows) := by
  induction rows generalizing dirty_count enabled_count with
  | nil => simp [aggregate_counts, dirty_rows, enabled_rows]
  | cons dwarf_id rest ih =>
    unfold aggregate_counts
    cases hd : m_model.get_dwarf_by_id dwarf_id with
    | none =>
      simp [ih, dirty_rows, enabled_rows, row_dirty, row_enabled, hd, List.countP_cons]
    | some d =>
      cases he : d.labor_enabled labor_id <;> cases hdirty : d.is_labor_state_dirty labor_id <;>
        simp [ih, dirty_rows, enabled_rows, row_dirty, row_enabled, hd, he, hdirty,
          List.countP_cons] <;> omega

/-- The number of enabled rows of a group is at most its row count. -/
theorem enabled_rows_le (m_model : DwarfModel) (labor_id : Int) (rows : List Int) :
    enabled_rows m_model labor_id rows ≤ rows.length :=
  List.countP_le_length _

/-- The calls of `paint_aggregate` on a valid cell, in terms of the row counts. -/
theorem paint_aggregate_eq (self : UberDelegate) (m_model : DwarfModel) (adjusted : QRect)
    (opt : QStyleOptionViewItem) (cell : AggregateCell)
    (hvalid : cell.isValid = true) (hfirst : cell.first_col_isValid = true) :
    self.paint_aggregate m_model adjusted opt cell =
      [PaintOp.QStyledItemDelegate_paint, PaintOp.save,
        PaintOp.fillRect adjusted (QBrush.solid
          (if enabled_rows m_model cell.labor_id cell.rows = cell.rows.length then
            QColor.color_active_group
          else if enabled_rows m_model cell.labor_id cell.rows > 0 then
            QColor.color_partial_group
          else QColor.color_inactive_group)),
        PaintOp.restore] ++
      self.paint_grid adjusted (decide (dirty_rows m_model cell.labor_id cell.rows > 0)) opt := by
  simp only [UberDelegate.paint_aggregate, hvalid, hfirst, aggregate_counts_eq,
    AggregateCell.rowCount, Bool.not_true, Bool.false_eq_true, if_false, Nat.zero_add]
  split_ifs <;> simp


/-- `paint_grid` fills no rectangle. -/
theorem filled_rects_paint_grid (self : UberDelegate) (adjusted : QRect) (dirty : Bool)
    (opt : QStyleOptionViewItem) : filled_rects (self.paint_grid adjusted dirty opt) = [] := by
  cases dirty <;> cases hsel : opt.state_selected <;>
    simp [UberDelegate.paint_grid, hsel, filled_rects]

/-- C7. For a group with `n` rows of which `e` resolve to a dwarf with the labor
enabled, `paint_aggregate` fills the adjusted rectangle once: with the
active-group colour exactly when `e = n`, with the partial-group colour
exactly when `0 < e < n`, with the inactive-group colour exactly when `e = 0`
and `n > 0`; a row whose dwarf cannot be found is not an enabled row, and a
group with no rows gets the active-group colour. -/
theorem paint_aggregate_fill (self : UberDelegate) (m_model : DwarfModel) (adjusted : QRect)
    (opt : QStyleOptionViewItem) (cell : AggregateCell)
    (hvalid : cell.isValid = true) (hfirst : cell.first_col_isValid = true) :
    ∃ color : QColor,
      filled_rects (self.paint_aggregate m_model adjusted opt cell) =
        [(adjusted, QBrush.solid color)] ∧
      (color = QColor.color_active_group ↔
        enabled_rows m_model cell.labor_id cell.rows = cell.rowCount) ∧
      (color = QColor.color_partial_group ↔
        0 < enabled_rows m_model cell.labor_id cell.rows ∧
        enabled_rows m_model cell.labor_id cell.rows < cell.rowCount) ∧
      (color = QColor.color_inactive_group ↔
        enabled_rows m_model cell.labor_id cell.rows = 0 ∧ 0 < cell.rowCount) ∧
      (cell.rowCount = 0 → color = QColor.color_active_group) ∧
      (∀ dwarf_id, m_model.get_dwarf_by_id dwarf_id = none →
        row_enabled m_model cell.labor_id dwarf_id = false) := by
  have hle := enabled_rows_le m_model cell.labor_id cell.rows
  refine ⟨(if enabled_rows m_model cell.labor_id cell.rows = cell.rows.length then
      QColor.color_active_group
    else if enabled_rows m_model cell.labor_id cell.rows > 0 then
      QColor.color_partial_group
    else QColor.color_inactive_group), ?_, ?_⟩
  · rw [paint_aggregate_eq self m_model adjusted opt cell hvalid hfirst]
    have hstep : ∀ (brush : QBrush) (rest : List PaintOp),
        filled_rects ([PaintOp.QStyledItemDelegate_paint, PaintOp.save,
          PaintOp.fillRect adjusted brush, PaintOp.restore] ++ rest) =
        (adjusted, brush) :: filled_rects rest := fun _ _ => rfl
    rw [hstep, filled_rects_paint_grid]
  · simp only [AggregateCell.rowCount]
    refine ⟨?_, ?_, ?_, ?_, ?_⟩
    · split_ifs <;> simp_all
    · split_ifs <;> simp_all
      omega
    · split_ifs <;> simp_all <;> omega
    · intro h0
      have : enabled_rows m_model cell.labor_id cell.rows = cell.rows.length := by omega
      simp [this]
    · intro dwarf_id hnone
      simp [row_enabled, hnone]

/-- C7 at a concrete group: three rows, one enabled dwarf, one dwarf without
the labor, one unknown id; the fill is the partial-group colour. -/
theorem paint_aggregate_fill_witness :
    filled_rects (glyphDelegate.paint_aggregate sampleModel sampleRect sampleOption sampleGroup) =
      [(sampleRect, QBrush.solid QColor.color_partial_group)] := by
  obtain ⟨color, hfill, -, hpartial, -⟩ :=
    paint_aggregate_fill glyphDelegate sampleModel sampleRect sampleOption sampleGroup rfl rfl
  have hc : color = QColor.color_partial_group :=
    hpartial.2 (by decide)
  rw [hfill, hc]

/-- C8. `paint_aggregate` ends with `paint_grid` on the adjusted rectangle, and
the dirty flag it passes is true exactly when some row of the group resolves
to a dwarf whose state for the labor is dirty; accordingly the dirty-border
pen is set exactly then. Rows without a dwarf and the enabled counts play no
part in the condition. -/
theorem paint_aggregate_dirty (self : UberDelegate) (m_model : DwarfModel) (adjusted : QRect)
    (opt : QStyleOptionViewItem) (cell : AggregateCell)
    (hvalid : cell.isValid = true) (hfirst : cell.first_col_isValid = true) :
    ∃ (fill : QColor) (dirty : Bool),
      self.paint_aggregate m_model adjusted opt cell =
        [PaintOp.QStyledItemDelegate_paint, PaintOp.save,
          PaintOp.fillRect adjusted (QBrush.solid fill), PaintOp.restore] ++
        self.paint_grid adjusted dirty opt ∧
      (dirty = true ↔
        ∃ dwarf_id ∈ cell.rows, ∃ d : Dwarf,
          m_model.get_dwarf_by_id dwarf_id = some d ∧
          d.is_labor_state_dirty cell.labor_id = true) ∧
      (PaintOp.setPen { color := QColor.color_dirty_border, width := some 1 } ∈
          self.paint_aggregate m_model adjusted opt cell ↔
        dirty = true) := by
  refine ⟨_, decide (dirty_rows m_model cell.labor_id cell.rows > 0),
    paint_aggregate_eq self m_model adjusted opt cell hvalid hfirst, ?_, ?_⟩
  · simp only [decide_eq_true_eq, dirty_rows, gt_iff_lt, List.countP_pos_iff]
    constructor
    · rintro ⟨dwarf_id, hmem, hd⟩
      refine ⟨dwarf_id, hmem, ?_⟩
      unfold row_dirty at hd
      cases hget : m_model.get_dwarf_by_id dwarf_id with
      | none => simp [hget] at hd
      | some d => exact ⟨d, rfl, by simpa [hget] using hd⟩
    · rintro ⟨dwarf_id, hmem, d, hget, hd⟩
      exact ⟨dwarf_id, hmem, by simp [row_dirty, hget, hd]⟩
  · rw [paint_aggregate_eq self m_model adjusted opt cell hvalid hfirst]
    cases hdirty : decide (dirty_rows m_model cell.labor_id cell.rows > 0) <;>
      cases hsel : opt.state_selected <;>
      simp [UberDelegate.paint_grid, hsel]

/-- C8 at a concrete group: dwarf 1 is dirty for labor 5, so the dirty-border pen is set. -/
theorem paint_aggregate_dirty_witness :
    PaintOp.setPen { color := QColor.color_dirty_border, width := some 1 } ∈
      glyphDelegate.paint_aggregate sampleModel sampleRect sampleOption sampleGroup := by
  obtain ⟨_, dirty, -, hiff, hpen⟩ :=
    paint_aggregate_dirty glyphDelegate sampleModel sampleRect sampleOption sampleGroup rfl rfl
  exact hpen.2 (hiff.2 ⟨1, by decide, _, rfl, rfl⟩)


/-! ## UberDelegate: paint_skill, theorems -/

/-- The calls of `paint_skill` under `SDM_GLYPH_LINES` for a rating outside 15..20. -/
theorem paint_skill_glyph_eq (self : UberDelegate) (adjusted : QRect) (rating : Int)
    (bg : QColor) (opt : QStyleOptionViewItem)
    (hmethod : self.m_skill_drawing_method = SKILL_DRAWING_METHOD.SDM_GLYPH_LINES)
    (hrange : ¬ (15 ≤ rating ∧ rating ≤ 20)) :
    self.paint_skill adjusted rating bg opt =
      [PaintOp.save,
        PaintOp.setBrush (QBrush.solid
          (if self.auto_contrast then QColor.compliment bg else QColor.color_skill)),
        PaintOp.setPen
          { color := if self.auto_contrast then QColor.compliment bg else QColor.color_skill,
            width := none },
        PaintOp.translate adjusted.x adjusted.y,
        PaintOp.scale adjusted.width adjusted.height] ++
      glyph_polygon_ops (glyph_fallthrough rating) ++
      [PaintOp.drawLines (glyph_lines (glyph_fallthrough rating)), PaintOp.restore] := by
  simp [UberDelegate.paint_skill, hmethod, hrange]

/-- C9 fails on the code at rating 21 under `SDM_GLYPH_LINES`: the inner switch
has no label for it, so no polygon is drawn and `drawLines` is given no
segment, while 21 is a rating from dabbling upward. -/
theorem paint_skill_glyph_lines_21_draws_nothing :
    (0 : Int) ≤ 21 ∧
    glyphDelegate.m_skill_drawing_method = SKILL_DRAWING_METHOD.SDM_GLYPH_LINES ∧
    drawing_primitives (glyphDelegate.paint_skill sampleRect 21 (QColor.model 0) sampleOption) = 0 ∧
    polygons (glyphDelegate.paint_skill sampleRect 21 (QColor.model 0) sampleOption) = [] ∧
    line_segments (glyphDelegate.paint_skill sampleRect 21 (QColor.model 0) sampleOption) = [] := by
  rw [paint_skill_glyph_eq glyphDelegate sampleRect 21 (QColor.model 0) sampleOption rfl (by decide)]
  have h : glyph_fallthrough 21 = [] := by decide
  simp [h, glyph_polygon_ops, glyph_lines, drawing_primitives, PaintOp.primitives, polygons,
    line_segments, glyphDelegate]


/-- The triangle calls contain no `drawLines`. -/
theorem line_segments_glyph_polygon_ops (stmts : List GlyphStmt) :
    line_segments (glyph_polygon_ops stmts) = [] := by
  induction stmts with
  | nil => rfl
  | cons stmt rest ih => cases stmt <;> simpa [glyph_polygon_ops, line_segments] using ih

/-- Reading the segments off a sequence of calls distributes over concatenation. -/
theorem line_segments_append (ops ops2 : List PaintOp) :
    line_segments (ops ++ ops2) = line_segments ops ++ line_segments ops2 := by
  induction ops with
  | nil => rfl
  | cons op rest ih => cases op <;> simp [line_segments, ih]

/-- Reading the polygons off a sequence of calls distributes over concatenation. -/
theorem polygons_append (ops ops2 : List PaintOp) :
    polygons (ops ++ ops2) = polygons ops ++ polygons ops2 := by
  induction ops with
  | nil => rfl
  | cons op rest ih => cases op <;> simp [polygons, ih]

/-- Under `SDM_GLYPH_LINES`, for a rating outside 15..20, the segments drawn are
the vector `lines` left by the inner switch. -/
theorem line_segments_paint_skill_glyph (self : UberDelegate) (adjusted : QRect) (rating : Int)
    (bg : QColor) (opt : QStyleOptionViewItem)
    (hmethod : self.m_skill_drawing_method = SKILL_DRAWING_METHOD.SDM_GLYPH_LINES)
    (hrange : ¬ (15 ≤ rating ∧ rating ≤ 20)) :
    line_segments (self.paint_skill adjusted rating bg opt) =
      glyph_lines (glyph_fallthrough rating) := by
  rw [paint_skill_glyph_eq self adjusted rating bg opt hmethod hrange]
  simp [line_segments_append, line_segments_glyph_polygon_ops, line_segments]

/-- Under `SDM_GLYPH_LINES`, for a rating outside 15..20, the polygons drawn are
those of the statements the inner switch executes. -/
theorem polygons_paint_skill_glyph (self : UberDelegate) (adjusted : QRect) (rating : Int)
    (bg : QColor) (opt : QStyleOptionViewItem)
    (hmethod : self.m_skill_drawing_method = SKILL_DRAWING_METHOD.SDM_GLYPH_LINES)
    (hrange : ¬ (15 ≤ rating ∧ rating ≤ 20)) :
    polygons (self.paint_skill adjusted rating bg opt) =
      polygons (glyph_polygon_ops (glyph_fallthrough rating)) := by
  rw [paint_skill_glyph_eq self adjusted rating bg opt hmethod hrange]
  simp [polygons_append, polygons]

/-- Fall-through: from each label 1..14 the switch executes that label's
statement and then everything executed from the label below it. -/
theorem glyph_fallthrough_succ (rating : Int) (h1 : 1 ≤ rating) (h14 : rating ≤ 14) :
    ∃ stmt, glyph_fallthrough rating = stmt :: glyph_fallthrough (rating - 1) := by
  interval_cases rating <;> exact ⟨_, rfl⟩

/-- C10. Under `SDM_GLYPH_LINES`: a rating `r` in 0..10 draws `r + 1` segments
and no polygon; a rating in 11..14 draws 11 segments and `r - 10` polygons,
all triangles; for `r` in 1..14 every segment and polygon drawn for `r - 1`
is drawn for `r`; a rating in 15..20 draws the star polygon alone and no
segment. -/
theorem paint_skill_glyph_lines_cumulative (self : UberDelegate) (adjusted : QRect)
    (bg : QColor) (opt : QStyleOptionViewItem)
    (hmethod : self.m_skill_drawing_method = SKILL_DRAWING_METHOD.SDM_GLYPH_LINES) :
    (∀ r : Int, 0 ≤ r → r ≤ 10 →
      ((line_segments (self.paint_skill adjusted r bg opt)).length : Int) = r + 1 ∧
      triangles (self.paint_skill adjusted r bg opt) = [] ∧
      polygons (self.paint_skill adjusted r bg opt) = []) ∧
    (∀ r : Int, 11 ≤ r → r ≤ 14 →
      (line_segments (self.paint_skill adjusted r bg opt)).length = 11 ∧
      ((triangles (self.paint_skill adjusted r bg opt)).length : Int) = r - 10 ∧
      polygons (self.paint_skill adjusted r bg opt) =
        triangles (self.paint_skill adjusted r bg opt)) ∧
    (∀ r : Int, 1 ≤ r → r ≤ 14 →
      (∀ line ∈ line_segments (self.paint_skill adjusted (r - 1) bg opt),
        line ∈ line_segments (self.paint_skill adjusted r bg opt)) ∧
      (∀ poly ∈ polygons (self.paint_skill adjusted (r - 1) bg opt),
        poly ∈ polygons (self.paint_skill adjusted r bg opt))) ∧
    (∀ r : Int, 15 ≤ r → r ≤ 20 →
      polygons (self.paint_skill adjusted r bg opt) = [self.m_star_shape] ∧
      line_segments (self.paint_skill adjusted r bg opt) = []) := by
  refine ⟨?_, ?_, ?_, ?_⟩
  · intro r h0 h10
    rw [triangles, polygons_paint_skill_glyph self adjusted r bg opt hmethod (by omega),
      line_segments_paint_skill_glyph self adjusted r bg opt hmethod (by omega)]
    interval_cases r <;> decide
  · intro r h11 h14
    rw [triangles, polygons_paint_skill_glyph self adjusted r bg opt hmethod (by omega),
      line_segments_paint_skill_glyph self adjusted r bg opt hmethod (by omega)]
    interval_cases r <;> exact ⟨by decide, by decide, rfl⟩
  · intro r h1 h14
    rw [polygons_paint_skill_glyph self adjusted r bg opt hmethod (by omega),
      polygons_paint_skill_glyph self adjusted (r - 1) bg opt hmethod (by omega),
      line_segments_paint_skill_glyph self adjusted r bg opt hmethod (by omega),
      line_segments_paint_skill_glyph self adjusted (r - 1) bg opt hmethod (by omega)]
    obtain ⟨stmt, hstmt⟩ := glyph_fallthrough_succ r h1 h14
    rw [hstmt]
    cases stmt <;> simp [glyph_lines, glyph_polygon_ops, polygons] <;> tauto
  · intro r h15 h20
    have hr : 15 ≤ r ∧ r ≤ 20 := ⟨h15, h20⟩
    simp [UberDelegate.paint_skill, hmethod, hr, polygons, line_segments]


/-- C10 at concrete ratings of a glyph-drawing delegate: rating 7 draws eight
segments, rating 13 draws three triangles, rating 15 draws the star alone. -/
theorem paint_skill_glyph_lines_cumulative_witness :
    ((line_segments
      (glyphDelegate.paint_skill sampleRect 7 (QColor.model 0) sampleOption)).length : Int) =
        7 + 1 ∧
    ((triangles
      (glyphDelegate.paint_skill sampleRect 13 (QColor.model 0) sampleOption)).length : Int) =
        13 - 10 ∧
    polygons (glyphDelegate.paint_skill sampleRect 15 (QColor.model 0) sampleOption) =
      [glyphDelegate.m_star_shape] :=
  ⟨((paint_skill_glyph_lines_cumulative glyphDelegate sampleRect (QColor.model 0) sampleOption
      rfl).1 7 (by decide) (by decide)).1,
   ((paint_skill_glyph_lines_cumulative glyphDelegate sampleRect (QColor.model 0) sampleOption
      rfl).2.1 13 (by decide) (by decide)).2.1,
   ((paint_skill_glyph_lines_cumulative glyphDelegate sampleRect (QColor.model 0) sampleOption
      rfl).2.2.2 15 (by decide) (by decide)).1⟩

/-- The inner switch has no label for a rating below 0 or above 20 (nor, in
this table, for 15..20, which the star labels take). -/
theorem glyph_fallthrough_no_label (rating : Int) (h : rating < 0 ∨ 14 < rating) :
    glyph_fallthrough rating = [] := by
  have hnil : glyph_cases.dropWhile (fun c => c.1 != rating) = [] := by
    rw [List.dropWhile_eq_nil_iff]
    intro c hc
    simp only [glyph_cases, List.mem_cons, List.mem_singleton, List.not_mem_nil, or_false] at hc
    rcases hc with hc | hc | hc | hc | hc | hc | hc | hc | hc | hc | hc | hc | hc | hc | hc <;>
      subst hc <;> simp <;> omega
  simp [glyph_fallthrough, hnil]

/-- Under the other three drawing methods a shape is drawn exactly for the
ratings from dabbling (0) upward. -/
theorem paint_skill_draws_iff_nonneg (self : UberDelegate) (adjusted : QRect) (rating : Int)
    (bg : QColor) (opt : QStyleOptionViewItem)
    (hmethod : self.m_skill_drawing_method ≠ SKILL_DRAWING_METHOD.SDM_GLYPH_LINES) :
    0 < drawing_primitives (self.paint_skill adjusted rating bg opt) ↔ 0 ≤ rating := by
  cases hm : self.m_skill_drawing_method
  · by_cases h15 : rating ≥ 15
    · simp [UberDelegate.paint_skill, hm, h15, drawing_primitives, PaintOp.primitives]
      omega
    · by_cases h0 : rating > -1 ∧ rating < 15
      · simp [UberDelegate.paint_skill, hm, h15, h0, drawing_primitives, PaintOp.primitives]
        omega
      · simp [UberDelegate.paint_skill, hm, h15, h0, drawing_primitives, PaintOp.primitives]
        omega
  · by_cases h15 : rating ≥ 15
    · simp [UberDelegate.paint_skill, hm, h15, drawing_primitives, PaintOp.primitives]
      omega
    · by_cases h0 : rating > -1 ∧ rating < 15
      · simp [UberDelegate.paint_skill, hm, h15, h0, drawing_primitives, PaintOp.primitives]
        omega
      · simp [UberDelegate.paint_skill, hm, h15, h0, drawing_primitives, PaintOp.primitives]
        omega
  · exact absurd hm hmethod
  · by_cases h0 : rating > -1
    · simp [UberDelegate.paint_skill, hm, h0, drawing_primitives, PaintOp.primitives]
      omega
    · simp [UberDelegate.paint_skill, hm, h0, drawing_primitives, PaintOp.primitives]
      omega


/-- Under `SDM_GLYPH_LINES` a shape is drawn exactly for the ratings 0..20:
the ratings above 20 are from dabbling upward and draw nothing. -/
theorem paint_skill_glyph_draws_iff (self : UberDelegate) (adjusted : QRect) (rating : Int)
    (bg : QColor) (opt : QStyleOptionViewItem)
    (hmethod : self.m_skill_drawing_method = SKILL_DRAWING_METHOD.SDM_GLYPH_LINES) :
    0 < drawing_primitives (self.paint_skill adjusted rating bg opt) ↔
      0 ≤ rating ∧ rating ≤ 20 := by
  by_cases hstar : 15 ≤ rating ∧ rating ≤ 20
  · simp [UberDelegate.paint_skill, hmethod, hstar, drawing_primitives, PaintOp.primitives]
    omega
  · rw [paint_skill_glyph_eq self adjusted rating bg opt hmethod hstar]
    by_cases hout : rating < 0 ∨ 14 < rating
    · rw [glyph_fallthrough_no_label rating hout]
      simp [drawing_primitives, PaintOp.primitives, glyph_polygon_ops, glyph_lines]
      omega
    · have h0 : 0 ≤ rating := by omega
      have h14 : rating ≤ 14 := by omega
      have hlen : 0 < (glyph_lines (glyph_fallthrough rating)).length := by
        interval_cases rating <;> decide
      simp only [drawing_primitives, List.map_append, List.sum_append, List.map_cons,
        List.map_nil, List.sum_cons, List.sum_nil, PaintOp.primitives]
      constructor
      · intro _
        omega
      · intro _
        omega


/-! ## UberDelegate: the growing central box, theorems -/

/-- The calls of `paint_skill` under `SDM_GROWING_CENTRAL_BOX` for a rating in 0..14. -/
theorem paint_skill_central_box_eq (self : UberDelegate) (adjusted : QRect) (rating : Int)
    (bg : QColor) (opt : QStyleOptionViewItem)
    (hmethod : self.m_skill_drawing_method = SKILL_DRAWING_METHOD.SDM_GROWING_CENTRAL_BOX)
    (h0 : 0 ≤ rating) (h14 : rating ≤ 14) :
    self.paint_skill adjusted rating bg opt =
      [PaintOp.save,
        PaintOp.translate adjusted.x adjusted.y,
        PaintOp.scale adjusted.width adjusted.height,
        PaintOp.fillRectF
          { x := (1.0 - 0.75 * ((rating + 1) / 15.0)) / 2.0
            y := (1.0 - 0.75 * ((rating + 1) / 15.0)) / 2.0
            width := 0.75 * ((rating + 1) / 15.0)
            height := 0.75 * ((rating + 1) / 15.0) }
          (QBrush.solid
            (if self.auto_contrast then QColor.compliment bg else QColor.color_skill)),
        PaintOp.restore] := by
  have h15 : ¬ rating ≥ 15 := by omega
  have hin : rating > -1 ∧ rating < 15 := by omega
  simp [UberDelegate.paint_skill, hmethod, h15, hin]

/-- The calls of `paint_skill` under `SDM_GROWING_CENTRAL_BOX` for a rating of 15 or more. -/
theorem paint_skill_central_diamond_eq (self : UberDelegate) (adjusted : QRect) (rating : Int)
    (bg : QColor) (opt : QStyleOptionViewItem)
    (hmethod : self.m_skill_drawing_method = SKILL_DRAWING_METHOD.SDM_GROWING_CENTRAL_BOX)
    (h15 : 15 ≤ rating) :
    self.paint_skill adjusted rating bg opt =
      [PaintOp.save,
        PaintOp.setRenderHintAntialiasing,
        PaintOp.setPen { color := QColor.gray, width := none },
        PaintOp.setBrush (QBrush.solid
          (if self.auto_contrast then QColor.compliment bg else QColor.color_skill)),
        PaintOp.translate (opt.rect.x + 2) (opt.rect.y + 2),
        PaintOp.scale (opt.rect.width - 4) (opt.rect.height - 4),
        PaintOp.drawPolygon m_diamond_shape FillRule.OddEvenFill,
        PaintOp.restore] := by
  have h : rating ≥ 15 := h15
  simp [UberDelegate.paint_skill, hmethod, h]


/-- The side of the box drawn for a rating in 0..14, as the code computes it,
is `0.75 * (rating + 1) / 15`, and its inset is half of what is left of 1. -/
theorem central_box_rect_eq (rating : Int) :
    ({ x := (1.0 - 0.75 * ((rating + 1) / 15.0)) / 2.0
       y := (1.0 - 0.75 * ((rating + 1) / 15.0)) / 2.0
       width := 0.75 * ((rating + 1) / 15.0)
       height := 0.75 * ((rating + 1) / 15.0) } : QRectF) =
    { x := (1 - 0.75 * ((rating : ℚ) + 1) / 15) / 2
      y := (1 - 0.75 * ((rating : ℚ) + 1) / 15) / 2
      width := 0.75 * ((rating : ℚ) + 1) / 15
      height := 0.75 * ((rating : ℚ) + 1) / 15 } := by
  have hside : (0.75 : ℚ) * (((rating : ℚ) + 1) / 15.0) = 0.75 * ((rating : ℚ) + 1) / 15 := by
    norm_num
    ring
  have hinset : ((1.0 : ℚ) - 0.75 * (((rating : ℚ) + 1) / 15.0)) / 2.0 =
      (1 - 0.75 * ((rating : ℚ) + 1) / 15) / 2 := by
    norm_num
    ring
  simp only [QRectF.mk.injEq]
  exact ⟨hinset, hinset, hside, hside⟩

/-- C11. Under `SDM_GROWING_CENTRAL_BOX`, over the rationals: a rating `r` in
0..14 fills one square of side `s = 0.75 * (r + 1) / 15`, `0 < s <= 0.75`,
inset by `(1 - s) / 2` on each axis, hence centred at (1/2, 1/2) and inside
the unit cell, and draws no polygon; `s` equals `0.75` exactly at `r = 14`;
the side grows strictly with the rating; and a rating of 15 or more draws
the diamond and fills no square. -/
theorem paint_skill_central_box_geometry (self : UberDelegate) (adjusted : QRect)
    (bg : QColor) (opt : QStyleOptionViewItem)
    (hmethod : self.m_skill_drawing_method = SKILL_DRAWING_METHOD.SDM_GROWING_CENTRAL_BOX) :
    (∀ r : Int, 0 ≤ r → r ≤ 14 →
      ∃ s : ℚ,
        s = 0.75 * ((r : ℚ) + 1) / 15 ∧ 0 < s ∧ s ≤ 0.75 ∧ (s = 0.75 ↔ r = 14) ∧
        filled_rectsF (self.paint_skill adjusted r bg opt) =
          [{ x := (1 - s) / 2, y := (1 - s) / 2, width := s, height := s }] ∧
        polygons (self.paint_skill adjusted r bg opt) = [] ∧
        QRectF.center { x := (1 - s) / 2, y := (1 - s) / 2, width := s, height := s } =
          { x := 1 / 2, y := 1 / 2 } ∧
        QRectF.inUnitCell { x := (1 - s) / 2, y := (1 - s) / 2, width := s, height := s }) ∧
    (∀ r r2 : Int, 0 ≤ r → r < r2 → r2 ≤ 14 →
      ∀ box ∈ filled_rectsF (self.paint_skill adjusted r bg opt),
        ∀ box2 ∈ filled_rectsF (self.paint_skill adjusted r2 bg opt),
          box.width < box2.width) ∧
    (∀ r : Int, 15 ≤ r →
      polygons (self.paint_skill adjusted r bg opt) = [m_diamond_shape] ∧
      filled_rectsF (self.paint_skill adjusted r bg opt) = []) := by
  have hrects : ∀ r : Int, 0 ≤ r → r ≤ 14 →
      filled_rectsF (self.paint_skill adjusted r bg opt) =
        [{ x := (1 - 0.75 * ((r : ℚ) + 1) / 15) / 2, y := (1 - 0.75 * ((r : ℚ) + 1) / 15) / 2,
           width := 0.75 * ((r : ℚ) + 1) / 15, height := 0.75 * ((r : ℚ) + 1) / 15 }] := by
    intro r h0 h14
    rw [paint_skill_central_box_eq self adjusted r bg opt hmethod h0 h14, central_box_rect_eq]
    rfl
  refine ⟨?_, ?_, ?_⟩
  · intro r h0 h14
    have hq0 : (0 : ℚ) ≤ (r : ℚ) := by exact_mod_cast h0
    have hq14 : (r : ℚ) ≤ 14 := by exact_mod_cast h14
    refine ⟨0.75 * ((r : ℚ) + 1) / 15, rfl, ?_, ?_, ?_, hrects r h0 h14, ?_, ?_, ?_⟩
    · norm_num
      linarith
    · norm_num
      linarith
    · constructor
      · intro hs
        have hq : (r : ℚ) = 14 := by
          norm_num at hs
          linarith
        exact_mod_cast hq
      · intro hr
        subst hr
        norm_num
    · rw [paint_skill_central_box_eq self adjusted r bg opt hmethod h0 h14]
      rfl
    · simp only [QRectF.center, QPointF.mk.injEq]
      constructor <;> ring
    · simp only [QRectF.inUnitCell]
      norm_num
      refine ⟨?_, ?_⟩ <;> linarith
  · intro r r2 h0 hlt h14 box hbox box2 hbox2
    rw [hrects r h0 (by omega)] at hbox
    rw [hrects r2 (by omega) h14] at hbox2
    simp only [List.mem_singleton] at hbox hbox2
    subst hbox
    subst hbox2
    have hq : (r : ℚ) < (r2 : ℚ) := by exact_mod_cast hlt
    show (0.75 : ℚ) * ((r : ℚ) + 1) / 15 < 0.75 * ((r2 : ℚ) + 1) / 15
    norm_num
    linarith
  · intro r h15
    rw [paint_skill_central_diamond_eq self adjusted r bg opt hmethod h15]
    exact ⟨rfl, rfl⟩

/-- C11 at a concrete delegate: rating 14 fills the square of side 3/4 inset
by 1/8, rating 0 the square of side 1/20, and rating 15 the diamond. -/
theorem paint_skill_central_box_geometry_witness :
    (∃ s : ℚ, s = 0.75 * (((14 : Int) : ℚ) + 1) / 15 ∧ s = 0.75 ∧
      filled_rectsF (boxDelegate.paint_skill sampleRect 14 (QColor.model 0) sampleOption) =
        [{ x := (1 - s) / 2, y := (1 - s) / 2, width := s, height := s }]) ∧
    polygons (boxDelegate.paint_skill sampleRect 15 (QColor.model 0) sampleOption) =
      [m_diamond_shape] := by
  obtain ⟨hbox, -, hdiamond⟩ :=
    paint_skill_central_box_geometry boxDelegate sampleRect (QColor.model 0) sampleOption rfl
  obtain ⟨s, hs, -, -, h14, hrect, -⟩ := hbox 14 (by decide) (by decide)
  exact ⟨⟨s, hs, h14.2 rfl, hrect⟩, (hdiamond 15 (by decide)).1⟩


end DwarfTherapist
